import Mathlib

/-!
Shallow embedding of the ledger core of `firstpbl.py` (classes `Account` and
`BankManagementSystem`).  Monetary values are embedded as rationals, the
account mapping as an insertion-ordered association list (Python `dict`
semantics: assignment to an existing key updates in place, to a fresh key
appends; `del` removes the entry).  Raised exceptions become `Except` errors;
timestamps produced by `datetime.now()` are passed in as explicit string
arguments.  File persistence is modelled by the structured content written by
`save_data` (the per-account dictionaries produced by `get_details`); the JSON
text layer is an injective encoding of that content and is not re-modelled.
-/

/-- Exception kinds raised by the core.  `failedToCreate e` embeds the generic
`Exception("Failed to create account: ...")` that `create_account` re-raises
after catching an inner exception `e`; `valueError` embeds Python `ValueError`
(raised by `int()` on an unparsable string). -/
inductive BankError where
  | invalidAmount
  | insufficientBalance (available : ℚ)
  | invalidAccount
  | invalidPIN
  | valueError
  | failedToCreate (inner : BankError)
  deriving Repr, DecidableEq

/-- One entry of an account's transaction history, the dictionary appended by
`Account._add_transaction` (keys `type`, `amount`, `balance`, `date`). -/
structure Transaction where
  type : String
  amount : ℚ
  balance : ℚ
  date : String
  deriving Repr, DecidableEq

/-- The `Account` object: fields set by `Account.__init__` (with
`creation_date` the `datetime.now()` string at construction time, here the
explicit `now` argument). -/
structure Account where
  account_number : String
  name : String
  pin : String
  balance : ℚ
  account_type : String
  creation_date : String
  transactions : List Transaction
  deriving Repr, DecidableEq

namespace Account

/-- Embeds `Account.__init__(account_number, name, pin, balance, account_type)`
called at time `now` (the Python defaults are `balance=0.0`,
`account_type="Savings"`; callers in this file always pass them explicitly). -/
def init (account_number name pin : String) (balance : ℚ) (account_type : String)
    (now : String) : Account :=
  { account_number := account_number, name := name, pin := pin, balance := balance,
    account_type := account_type, creation_date := now, transactions := [] }

/-- Embeds `Account._add_transaction(trans_type, amount, balance)` at time `now`:
appends one transaction dictionary to the history. -/
def addTransaction (a : Account) (trans_type : String) (amount balance : ℚ)
    (now : String) : Account :=
  { a with transactions :=
      a.transactions ++ [{ type := trans_type, amount := amount,
                           balance := balance, date := now }] }

/-- Embeds `Account.deposit(amount)` at time `now`. -/
def deposit (a : Account) (amount : ℚ) (now : String) : Except BankError Account :=
  if amount ≤ 0 then .error .invalidAmount
  else
    let a2 := { a with balance := a.balance + amount }
    .ok (a2.addTransaction "Deposit" amount a2.balance now)

/-- Embeds `Account.withdraw(amount)` at time `now`. -/
def withdraw (a : Account) (amount : ℚ) (now : String) : Except BankError Account :=
  if amount ≤ 0 then .error .invalidAmount
  else if a.balance < amount then .error (.insufficientBalance a.balance)
  else
    let a2 := { a with balance := a.balance - amount }
    .ok (a2.addTransaction "Withdrawal" amount a2.balance now)

/-- Embeds `Account.calculate_interest(rate=3.5)`: pure, returns
`(balance * rate) / 100`. -/
def calculate_interest (a : Account) (rate : ℚ := 7/2) : ℚ :=
  a.balance * rate / 100

/-- Embeds `Account.add_interest(rate=3.5)` at time `now`. -/
def add_interest (a : Account) (now : String) (rate : ℚ := 7/2) : Account :=
  let interest := a.calculate_interest rate
  let a2 := { a with balance := a.balance + interest }
  a2.addTransaction "Interest Credit" interest a2.balance now

/-- Embeds `Account.verify_pin(pin)`. -/
def verify_pin (a : Account) (pin : String) : Bool :=
  a.pin == pin

/-- Embeds `Account.update_pin(new_pin)`: unconditional replacement. -/
def update_pin (a : Account) (new_pin : String) : Account :=
  { a with pin := new_pin }

end Account

/-- Numeric value of a list of decimal digit characters, most significant
first (the value `int()` computes on such a list). -/
def digitsVal (cs : List Char) : ℕ :=
  cs.foldl (fun a c => 10 * a + (c.toNat - 48)) 0

/-- Embeds Python `int(s)` on the string arguments arising here: an optional
single sign followed by a nonempty run of ASCII decimal digits parses to the
corresponding integer, anything else raises `ValueError` (modelled `none`).
(Whitespace trimming, underscores, and non-ASCII digits accepted by `int()`
never occur in this development and are not modelled.) -/
def pyInt (s : String) : Option ℤ :=
  match s.data with
  | [] => none
  | c :: cs =>
    if c = '-' then
      if !cs.isEmpty && cs.all Char.isDigit then some (-(digitsVal cs : ℤ)) else none
    else if c = '+' then
      if !cs.isEmpty && cs.all Char.isDigit then some (digitsVal cs : ℤ) else none
    else
      if (c :: cs).all Char.isDigit then some (digitsVal (c :: cs) : ℤ) else none

/-- Decimal digit characters of `n`, most significant first; fuel-indexed so
that the recursion is structural (`fuel > n` suffices). -/
def natDigitsAux : ℕ → ℕ → List Char
  | 0, _ => []
  | fuel + 1, n =>
    if n < 10 then [Char.ofNat (48 + n)]
    else natDigitsAux fuel (n / 10) ++ [Char.ofNat (48 + n % 10)]

/-- Decimal digit characters of `n`, most significant first. -/
def natDigits (n : ℕ) : List Char :=
  natDigitsAux (n + 1) n

/-- Embeds Python decimal formatting of an `int` (as in `f"ACC{last_num + 1}"`). -/
def intToStr (i : ℤ) : String :=
  if i < 0 then "-" ++ String.mk (natDigits i.natAbs) else String.mk (natDigits i.toNat)

/-- Embeds Python dict assignment `m[k] = v`: update in place when the key is
present (preserving position), append otherwise. -/
def dictInsert (k : String) (v : Account) (m : List (String × Account)) :
    List (String × Account) :=
  if (m.lookup k).isSome then m.map (fun p => if p.1 = k then (k, v) else p)
  else m ++ [(k, v)]

/-- Embeds Python `del m[k]` (callers only reach it with `k` present). -/
def dictErase (k : String) (m : List (String × Account)) : List (String × Account) :=
  m.filter (fun p => p.1 != k)

/-- The per-account dictionary written to the data file: the return value of
`Account.get_details`, and the value read back per account by `load_data`. -/
structure AccountData where
  account_number : String
  name : String
  pin : String
  balance : ℚ
  account_type : String
  creation_date : String
  transactions : List Transaction
  deriving Repr, DecidableEq

/-- Embeds `Account.get_details()`. -/
def Account.get_details (a : Account) : AccountData :=
  { account_number := a.account_number, name := a.name, pin := a.pin,
    balance := a.balance, account_type := a.account_type,
    creation_date := a.creation_date, transactions := a.transactions }

/-- The per-account body of `load_data`: `Account(acc_data[...] ...)` followed
by the assignments to `creation_date` and `transactions` (which overwrite the
constructor's fresh timestamp and empty history, so the result does not depend
on the load-time clock). -/
def Account.fromData (d : AccountData) : Account :=
  { account_number := d.account_number, name := d.name, pin := d.pin,
    balance := d.balance, account_type := d.account_type,
    creation_date := d.creation_date, transactions := d.transactions }

/-- Embeds the list comprehension `[int(acc[3:]) for acc in self.accounts.keys()]`:
each key's substring from index 3 is parsed, the first `ValueError` aborting
the whole list (modelled `none`). -/
def parseSuffixes : List (String × Account) → Option (List ℤ)
  | [] => some []
  | p :: rest =>
    match pyInt (p.1.drop 3), parseSuffixes rest with
    | some n, some ns => some (n :: ns)
    | _, _ => none

/-- The `BankManagementSystem` state: its `accounts` dict (the `data_file`
path plays no role once persistence is modelled structurally). -/
structure BankManagementSystem where
  accounts : List (String × Account)
  deriving Repr, DecidableEq

namespace BankManagementSystem

/-- Embeds `BankManagementSystem.save_data()`: the structured content written
to the file, one `get_details` dictionary per account, in directory order. -/
def save_data (bms : BankManagementSystem) : List (String × AccountData) :=
  bms.accounts.map (fun p => (p.1, p.2.get_details))

/-- Embeds `BankManagementSystem.load_data()` applied to file content `data`:
starting from the empty dict of `__init__`, inserts each reconstructed
account under its file key, in file order. -/
def load_data (data : List (String × AccountData)) : BankManagementSystem :=
  { accounts := data.foldl (fun m p => dictInsert p.1 (Account.fromData p.2) m) [] }

/-- Embeds `BankManagementSystem.generate_account_number()`: `"ACC1001"` on an
empty dict; otherwise `int(acc[3:])` is evaluated for every key (a parse
failure raises, modelled `none`) and the result is `"ACC"` ++ (max + 1).
The inner `some []` case is unreachable (the suffix list of a nonempty dict
is nonempty); Python `max([])` would also raise, so `none` is faithful there. -/
def generate_account_number (bms : BankManagementSystem) : Option String :=
  match bms.accounts with
  | [] => some "ACC1001"
  | _ =>
    match parseSuffixes bms.accounts with
    | some (n :: ns) => some ("ACC" ++ intToStr (ns.foldl max n + 1))
    | _ => none

/-- Embeds `BankManagementSystem.create_account(name, pin, initial_deposit,
account_type)` at time `now`.  The Python body runs under
`try ... except Exception as e: raise Exception(f"Failed to create account: {e}")`,
so every inner exception reaches the caller wrapped (`failedToCreate`).
`save_data` is invoked on the new state before returning; being pure here, it
does not change the state.  Returns the new account number with the new state. -/
def create_account (bms : BankManagementSystem) (name pin : String)
    (initial_deposit : ℚ) (account_type : String) (now : String) :
    Except BankError (String × BankManagementSystem) :=
  let body : Except BankError (String × BankManagementSystem) :=
    if initial_deposit < 0 then .error .invalidAmount
    else
      match bms.generate_account_number with
      | none => .error .valueError
      | some account_number =>
        let account := Account.init account_number name pin initial_deposit account_type now
        let account :=
          if 0 < initial_deposit then
            account.addTransaction "Initial Deposit" initial_deposit initial_deposit now
          else account
        .ok (account_number, { bms with accounts := dictInsert account_number account bms.accounts })
  match body with
  | .error e => .error (.failedToCreate e)
  | .ok r => .ok r

/-- Embeds `BankManagementSystem.get_account(account_number, pin)`: PIN-gated
lookup; reads but never writes the directory state. -/
def get_account (bms : BankManagementSystem) (account_number pin : String) :
    Except BankError Account :=
  match bms.accounts.lookup account_number with
  | none => .error .invalidAccount
  | some account =>
    if account.verify_pin pin then .ok account else .error .invalidPIN

/-- Embeds `BankManagementSystem.delete_account(account_number, pin)`:
authenticates via `get_account`, then deletes the entry (and saves). -/
def delete_account (bms : BankManagementSystem) (account_number pin : String) :
    Except BankError BankManagementSystem :=
  match bms.get_account account_number pin with
  | .error e => .error e
  | .ok _ => .ok { bms with accounts := dictErase account_number bms.accounts }

end BankManagementSystem

/-- One balance-mutating call the shell can make on an authenticated account
(`deposit_menu`, `withdraw_menu`, `calculate_interest_menu` with `add = 'y'`),
each carrying the amount or rate entered and the call-time timestamp. -/
inductive AccountOp where
  | deposit (amount : ℚ) (now : String)
  | withdraw (amount : ℚ) (now : String)
  | addInterest (rate : ℚ) (now : String)
  deriving Repr, DecidableEq

/-- Runs one operation the way the shell does: a raised `InvalidAmountError`
or `InsufficientBalanceError` is caught and reported, leaving the account as
it was; `add_interest` always succeeds. -/
def applyOp (a : Account) : AccountOp → Account
  | .deposit amount now =>
    match a.deposit amount now with
    | .ok a2 => a2
    | .error _ => a
  | .withdraw amount now =>
    match a.withdraw amount now with
    | .ok a2 => a2
    | .error _ => a
  | .addInterest rate now => a.add_interest now rate

/-- Runs a sequence of shell operations left to right. -/
def applyOps (a : Account) (ops : List AccountOp) : Account :=
  ops.foldl applyOp a

/-- Signed contribution of one logged transaction to a replay of the history:
`Deposit`, `Initial Deposit` and `Interest Credit` amounts are added,
`Withdrawal` amounts subtracted (any other label contributes nothing; the
core only ever writes these four). -/
def replayDelta (t : Transaction) : ℚ :=
  if t.type = "Deposit" ∨ t.type = "Initial Deposit" ∨ t.type = "Interest Credit" then
    t.amount
  else if t.type = "Withdrawal" then -t.amount
  else 0

/-- Replays a transaction history from balance 0, in log order. -/
def replay (ts : List Transaction) : ℚ :=
  ts.foldl (fun b t => b + replayDelta t) 0

/-- The account object `create_account` builds before inserting it: fields
from its arguments, plus one `Initial Deposit` transaction when the deposit
is strictly positive. -/
def createdAccount (num name pin : String) (init : ℚ) (atype now : String) : Account :=
  if 0 < init then
    (Account.init num name pin init atype now).addTransaction "Initial Deposit" init init now
  else Account.init num name pin init atype now

/-- C1: `Account.withdraw(amount)` raises `InvalidAmountError` when
`amount ≤ 0`; raises `InsufficientBalanceError` carrying the available
balance when `amount > balance`; otherwise (including `amount = balance`)
it subtracts the amount and appends exactly one `Withdrawal` transaction
whose recorded balance is the new balance.  A failure returns only the
error, so the account is left unchanged, and success forces
`amount ≤ balance`. -/
theorem withdraw_spec (a : Account) (amount : ℚ) (now : String) :
    (amount ≤ 0 → a.withdraw amount now = .error .invalidAmount) ∧
    (0 < amount → a.balance < amount →
      a.withdraw amount now = .error (.insufficientBalance a.balance)) ∧
    (0 < amount → amount ≤ a.balance →
      a.withdraw amount now = .ok { a with
        balance := a.balance - amount,
        transactions := a.transactions ++
          [{ type := "Withdrawal", amount := amount,
             balance := a.balance - amount, date := now }] }) ∧
    (∀ a2, a.withdraw amount now = .ok a2 → amount ≤ a.balance) := by
  unfold Account.withdraw
  refine ⟨fun h => if_pos h, fun h1 h2 => ?_, fun h1 h2 => ?_, fun a2 h => ?_⟩
  · rw [if_neg (not_le.mpr h1), if_pos h2]
  · rw [if_neg (not_le.mpr h1), if_neg (not_lt.mpr h2)]
    rfl
  · rcases le_or_lt amount a.balance with hle | hlt
    · exact hle
    · exfalso
      by_cases h1 : amount ≤ 0
      · rw [if_pos h1] at h
        simp at h
      · rw [if_neg h1, if_pos hlt] at h
        simp at h

/-- Witness for C1: withdrawing 4 from a balance of 10 succeeds, leaves 6,
and logs one `Withdrawal` of 4 at balance 6. -/
theorem withdraw_spec_witness :
    (Account.init "ACC1001" "Alice" "1234" 10 "Savings" "t").withdraw 4 "u" =
      .ok { account_number := "ACC1001", name := "Alice", pin := "1234",
            balance := 6, account_type := "Savings", creation_date := "t",
            transactions := [{ type := "Withdrawal", amount := 4, balance := 6,
                               date := "u" }] } := by
  have h := (withdraw_spec (Account.init "ACC1001" "Alice" "1234" 10 "Savings" "t")
    4 "u").2.2.1 (by norm_num) (by norm_num [Account.init])
  rw [h]
  norm_num [Account.init]

/-- C6: `Account.deposit(amount)` raises `InvalidAmountError` when
`amount ≤ 0` (returning only the error, so balance and log are unchanged);
when `amount > 0` it adds the amount and appends exactly one `Deposit`
transaction whose recorded balance is the new balance. -/
theorem deposit_spec (a : Account) (amount : ℚ) (now : String) :
    (amount ≤ 0 → a.deposit amount now = .error .invalidAmount) ∧
    (0 < amount →
      a.deposit amount now = .ok { a with
        balance := a.balance + amount,
        transactions := a.transactions ++
          [{ type := "Deposit", amount := amount,
             balance := a.balance + amount, date := now }] }) := by
  unfold Account.deposit
  refine ⟨fun h => if_pos h, fun h1 => ?_⟩
  rw [if_neg (not_le.mpr h1)]
  rfl

/-- Witness for C6: depositing 50 onto a balance of 100 yields 150 with one
`Deposit` transaction at balance 150. -/
theorem deposit_spec_witness :
    (Account.init "ACC1001" "Alice" "1234" 100 "Savings" "t").deposit 50 "u" =
      .ok { account_number := "ACC1001", name := "Alice", pin := "1234",
            balance := 150, account_type := "Savings", creation_date := "t",
            transactions := [{ type := "Deposit", amount := 50, balance := 150,
                               date := "u" }] } := by
  have h := (deposit_spec (Account.init "ACC1001" "Alice" "1234" 100 "Savings" "t")
    50 "u").2 (by norm_num)
  rw [h]
  norm_num [Account.init]

/-- C5: `get_account(account_number, pin)` raises `InvalidAccountError`
exactly when the number is absent from the dict, raises `InvalidPINError`
exactly when it is present with a different stored pin, and returns the
stored account exactly when both match; it only reads the directory state. -/
theorem get_account_spec (bms : BankManagementSystem) (account_number pin : String) :
    (bms.accounts.lookup account_number = none →
      bms.get_account account_number pin = .error .invalidAccount) ∧
    (∀ a, bms.accounts.lookup account_number = some a → a.pin ≠ pin →
      bms.get_account account_number pin = .error .invalidPIN) ∧
    (∀ a, bms.accounts.lookup account_number = some a → a.pin = pin →
      bms.get_account account_number pin = .ok a) ∧
    (∀ a, bms.get_account account_number pin = .ok a →
      bms.accounts.lookup account_number = some a ∧ a.pin = pin) := by
  unfold BankManagementSystem.get_account Account.verify_pin
  refine ⟨fun h => by rw [h], fun a ha hne => ?_, fun a ha he => ?_, fun a h => ?_⟩
  · rw [ha]
    simp [hne]
  · rw [ha]
    simp [he]
  · cases hl : bms.accounts.lookup account_number with
    | none => rw [hl] at h; simp at h
    | some b =>
      rw [hl] at h
      by_cases hb : b.pin = pin
      · simp [hb] at h
        subst h
        exact ⟨rfl, hb⟩
      · simp [hb] at h

/-- Witness for C5: in a one-account directory, the right pin returns the
account, a wrong pin raises `InvalidPINError`, an unknown number raises
`InvalidAccountError`. -/
theorem get_account_spec_witness :
    (⟨[("ACC1001", Account.init "ACC1001" "Alice" "1234" 100 "Savings" "t")]⟩ :
        BankManagementSystem).get_account "ACC1001" "1234" =
      .ok (Account.init "ACC1001" "Alice" "1234" 100 "Savings" "t") ∧
    (⟨[("ACC1001", Account.init "ACC1001" "Alice" "1234" 100 "Savings" "t")]⟩ :
        BankManagementSystem).get_account "ACC1001" "0000" =
      .error .invalidPIN ∧
    (⟨[("ACC1001", Account.init "ACC1001" "Alice" "1234" 100 "Savings" "t")]⟩ :
        BankManagementSystem).get_account "ACC9999" "1234" =
      .error .invalidAccount := by
  refine ⟨(get_account_spec _ "ACC1001" "1234").2.2.1 _ (by rfl) (by rfl),
    (get_account_spec _ "ACC1001" "0000").2.1 _ (by rfl) (by decide),
    (get_account_spec _ "ACC9999" "1234").1 (by rfl)⟩

/-- C7: `calculate_interest(rate)` is pure and returns `balance * rate / 100`
(the default rate is 3.5); `add_interest(rate)` adds exactly that interest
and appends one `Interest Credit` transaction whose amount is the interest;
on balance 150 at rate 3.5 the interest is 5.25 and the new balance 155.25. -/
theorem interest_spec :
    (∀ (a : Account) (rate : ℚ), a.calculate_interest rate = a.balance * rate / 100) ∧
    (∀ a : Account, a.calculate_interest = a.calculate_interest (7/2)) ∧
    (∀ (a : Account) (now : String) (rate : ℚ),
      a.add_interest now rate = { a with
        balance := a.balance + a.calculate_interest rate,
        transactions := a.transactions ++
          [{ type := "Interest Credit", amount := a.calculate_interest rate,
             balance := a.balance + a.calculate_interest rate, date := now }] }) ∧
    ((Account.init "ACC1001" "Alice" "1234" 150 "Savings" "t").calculate_interest = 5.25 ∧
      ((Account.init "ACC1001" "Alice" "1234" 150 "Savings" "t").add_interest "u").balance =
        155.25) := by
  refine ⟨fun a rate => rfl, fun a => rfl, fun a now rate => rfl, ?_, ?_⟩
  · norm_num [Account.calculate_interest, Account.init]
  · norm_num [Account.add_interest, Account.calculate_interest, Account.addTransaction,
      Account.init]

theorem lookup_map_update (k : String) (v : Account) (m : List (String × Account))
    (h : (m.lookup k).isSome) :
    (m.map fun p => if p.1 = k then (k, v) else p).lookup k = some v := by
  induction m with
  | nil => simp at h
  | cons p rest ih =>
    obtain ⟨k2, v2⟩ := p
    by_cases hk : k2 = k
    · simp [List.lookup_cons, hk]
    · have hne : (k == k2) = false := beq_false_of_ne (Ne.symm hk)
      rw [List.lookup_cons, hne] at h
      simp only [List.map_cons, if_neg hk, List.lookup_cons, hne]
      exact ih h

theorem lookup_append_right (k : String) (m l : List (String × Account))
    (h : m.lookup k = none) : (m ++ l).lookup k = l.lookup k := by
  induction m with
  | nil => rfl
  | cons p rest ih =>
    obtain ⟨k2, v2⟩ := p
    by_cases hk : k = k2
    · simp [List.lookup_cons, hk] at h
    · have hne : (k == k2) = false := beq_false_of_ne hk
      rw [List.lookup_cons, hne] at h
      rw [List.cons_append, List.lookup_cons, hne]
      exact ih h

theorem lookup_dictInsert_self (k : String) (v : Account) (m : List (String × Account)) :
    (dictInsert k v m).lookup k = some v := by
  by_cases h : (m.lookup k).isSome
  · rw [dictInsert, if_pos h]
    exact lookup_map_update k v m h
  · rw [dictInsert, if_neg h]
    rw [lookup_append_right k m [(k, v)] (Option.not_isSome_iff_eq_none.mp h)]
    simp [List.lookup_cons]

/-- Case analysis of `create_account`: a negative initial deposit raises the
wrapped `InvalidAmountError`; otherwise, whenever number generation yields
`num` (its `ValueError` on unparsable keys being the only other failure,
also wrapped), the call succeeds for every `name` and `pin` whatsoever and
inserts `createdAccount` under `num`. -/
theorem create_account_cases (bms : BankManagementSystem) (name pin : String)
    (init : ℚ) (atype now : String) :
    (init < 0 → bms.create_account name pin init atype now =
        .error (.failedToCreate .invalidAmount)) ∧
    (0 ≤ init → ∀ num, bms.generate_account_number = some num →
      bms.create_account name pin init atype now =
        .ok (num, ⟨dictInsert num (createdAccount num name pin init atype now)
          bms.accounts⟩)) ∧
    (0 ≤ init → bms.generate_account_number = none →
      bms.create_account name pin init atype now =
        .error (.failedToCreate .valueError)) := by
  unfold BankManagementSystem.create_account
  refine ⟨fun h0 => ?_, fun h0 num hg => ?_, fun h0 hg => ?_⟩
  · rw [if_pos h0]
  · rw [if_neg (not_lt.mpr h0), hg]
    simp only [createdAccount, Account.init, Account.addTransaction]
  · rw [if_neg (not_lt.mpr h0), hg]

theorem create_account_ok_shape {bms : BankManagementSystem} {name pin : String}
    {init : ℚ} {atype now num : String} {bms2 : BankManagementSystem}
    (h : bms.create_account name pin init atype now = .ok (num, bms2)) :
    0 ≤ init ∧ bms.generate_account_number = some num ∧
    bms2 = ⟨dictInsert num (createdAccount num name pin init atype now) bms.accounts⟩ := by
  have hc := create_account_cases bms name pin init atype now
  by_cases h0 : init < 0
  · rw [hc.1 h0] at h
    simp at h
  · have h0' : 0 ≤ init := not_lt.mp h0
    cases hg : bms.generate_account_number with
    | none =>
      rw [hc.2.2 h0' hg] at h
      simp at h
    | some num2 =>
      rw [hc.2.1 h0' num2 hg] at h
      simp only [Except.ok.injEq, Prod.mk.injEq] at h
      obtain ⟨h4, h5⟩ := h
      subst h4
      subst h5
      exact ⟨h0', rfl, rfl⟩

/-- C2 (amended): `create_account` fails exactly for `initial_deposit < 0`
(the `InvalidAmountError` reaching the caller wrapped in the generic
"Failed to create account" exception); it performs no validation of `name`
or `pin`, so whenever the deposit is nonnegative and number generation
succeeds it inserts the account into the directory for every `name` and
`pin` — including an empty name and a pin that is not 4 digits. -/
theorem create_account_validation (bms : BankManagementSystem) (name pin : String)
    (init : ℚ) (atype now : String) :
    (init < 0 → bms.create_account name pin init atype now =
        .error (.failedToCreate .invalidAmount)) ∧
    (∀ num, 0 ≤ init → bms.generate_account_number = some num →
      ∃ bms2, bms.create_account name pin init atype now = .ok (num, bms2) ∧
        bms2.accounts.lookup num =
          some (createdAccount num name pin init atype now)) := by
  have hc := create_account_cases bms name pin init atype now
  refine ⟨hc.1, fun num h0 hg => ?_⟩
  exact ⟨_, hc.2.1 h0 num hg, lookup_dictInsert_self num _ bms.accounts⟩

/-- Witness for C2 (amended): a negative deposit is rejected with the wrapped
`InvalidAmountError`; an empty name with the 2-character pin "12" is accepted
and the account inserted. -/
theorem create_account_validation_witness :
    ((⟨[]⟩ : BankManagementSystem).create_account "Alice" "1234" (-1) "Savings" "t" =
      .error (.failedToCreate .invalidAmount)) ∧
    ∃ bms2, (⟨[]⟩ : BankManagementSystem).create_account "" "12" 0 "Savings" "t" =
      .ok ("ACC1001", bms2) ∧
      bms2.accounts.lookup "ACC1001" =
        some (createdAccount "ACC1001" "" "12" 0 "Savings" "t") :=
  ⟨(create_account_validation ⟨[]⟩ "Alice" "1234" (-1) "Savings" "t").1 (by norm_num),
   (create_account_validation ⟨[]⟩ "" "12" 0 "Savings" "t").2 "ACC1001" (by norm_num) rfl⟩

/-- C2 is false as stated: with an empty holder name and the 2-character pin
"12", `create_account` succeeds and silently inserts the account into the
directory. -/
theorem create_account_validation_counterexample :
    (⟨[]⟩ : BankManagementSystem).create_account "" "12" 0 "Savings" "t" =
      .ok ("ACC1001", ⟨[("ACC1001",
        { account_number := "ACC1001", name := "", pin := "12", balance := 0,
          account_type := "Savings", creation_date := "t",
          transactions := [] })]⟩) := rfl

theorem applyOp_balance_nonneg (a : Account) (op : AccountOp)
    (hb : 0 ≤ a.balance)
    (hr : ∀ rate now, op = AccountOp.addInterest rate now → -100 ≤ rate) :
    0 ≤ (applyOp a op).balance := by
  cases op with
  | deposit amount now =>
    by_cases h : amount ≤ 0
    · simpa [applyOp, Account.deposit, h] using hb
    · have h1 : 0 < amount := not_le.mp h
      simp only [applyOp, Account.deposit, if_neg h, Account.addTransaction]
      linarith
  | withdraw amount now =>
    by_cases h : amount ≤ 0
    · simpa [applyOp, Account.withdraw, h] using hb
    · by_cases h2 : a.balance < amount
      · simpa [applyOp, Account.withdraw, if_neg h, if_pos h2] using hb
      · simp only [applyOp, Account.withdraw, if_neg h, if_neg h2, Account.addTransaction]
        linarith [not_lt.mp h2]
  | addInterest rate now =>
    have hr2 : -100 ≤ rate := hr rate now rfl
    simp only [applyOp, Account.add_interest, Account.calculate_interest,
      Account.addTransaction]
    have h1 : 0 ≤ a.balance * (100 + rate) := mul_nonneg hb (by linarith)
    have h2 : a.balance + a.balance * rate / 100 = a.balance * (100 + rate) / 100 := by
      ring
    rw [h2]
    exact div_nonneg h1 (by norm_num)

theorem applyOps_balance_nonneg (a : Account) (ops : List AccountOp)
    (hb : 0 ≤ a.balance)
    (hr : ∀ rate now, AccountOp.addInterest rate now ∈ ops → -100 ≤ rate) :
    0 ≤ (applyOps a ops).balance := by
  induction ops generalizing a with
  | nil => exact hb
  | cons op rest ih =>
    exact ih (applyOp a op)
      (applyOp_balance_nonneg a op hb
        (fun rate now h => hr rate now (h ▸ List.mem_cons_self op rest)))
      (fun rate now h => hr rate now (List.mem_cons_of_mem op h))

theorem createdAccount_balance (num name pin : String) (init : ℚ) (atype now : String) :
    (createdAccount num name pin init atype now).balance = init := by
  unfold createdAccount Account.init Account.addTransaction
  split <;> rfl

/-- C3 (amended): starting from any account `create_account` inserted,
`deposit`, `withdraw` and `create_account` itself preserve `balance ≥ 0`
unconditionally, and `add_interest(rate)` preserves it provided
`rate ≥ −100`; hence the balance stays nonnegative after any sequence of
those operations whose interest rates are all ≥ −100.  (Rates below −100
break the invariant — see the counterexample.) -/
theorem balance_nonneg_spec :
    (∀ (a : Account) (op : AccountOp), 0 ≤ a.balance →
      (∀ rate now, op = AccountOp.addInterest rate now → -100 ≤ rate) →
      0 ≤ (applyOp a op).balance) ∧
    (∀ (bms : BankManagementSystem) (name pin : String) (init : ℚ)
      (atype now num : String) (bms2 : BankManagementSystem) (a : Account)
      (ops : List AccountOp),
      bms.create_account name pin init atype now = .ok (num, bms2) →
      bms2.accounts.lookup num = some a →
      (∀ rate now2, AccountOp.addInterest rate now2 ∈ ops → -100 ≤ rate) →
      0 ≤ (applyOps a ops).balance) := by
  refine ⟨applyOp_balance_nonneg, ?_⟩
  intro bms name pin init atype now num bms2 a ops hc ha hr
  obtain ⟨h0, -, hb2⟩ := create_account_ok_shape hc
  subst hb2
  rw [lookup_dictInsert_self] at ha
  have ha2 : a = createdAccount num name pin init atype now := by
    injection ha.symm
  subst ha2
  exact applyOps_balance_nonneg _ ops (by rw [createdAccount_balance]; exact h0) hr

/-- Witness for C3 (amended): the account created with deposit 100, after a
deposit of 50 and a withdrawal of 150, still has a nonnegative balance. -/
theorem balance_nonneg_spec_witness :
    0 ≤ (applyOps
      { account_number := "ACC1001", name := "Alice", pin := "1234", balance := 100,
        account_type := "Savings", creation_date := "t0",
        transactions := [{ type := "Initial Deposit", amount := 100, balance := 100,
                           date := "t0" }] }
      [AccountOp.deposit 50 "t1", AccountOp.withdraw 150 "t2"]).balance :=
  balance_nonneg_spec.2 ⟨[]⟩ "Alice" "1234" 100 "Savings" "t0" "ACC1001"
    ⟨[("ACC1001",
      { account_number := "ACC1001", name := "Alice", pin := "1234", balance := 100,
        account_type := "Savings", creation_date := "t0",
        transactions := [{ type := "Initial Deposit", amount := 100, balance := 100,
                           date := "t0" }] })]⟩
    { account_number := "ACC1001", name := "Alice", pin := "1234", balance := 100,
      account_type := "Savings", creation_date := "t0",
      transactions := [{ type := "Initial Deposit", amount := 100, balance := 100,
                         date := "t0" }] }
    [AccountOp.deposit 50 "t1", AccountOp.withdraw 150 "t2"]
    rfl rfl (by intro rate now2 h; simp at h)

/-- C3 is false as stated ("with any rate argument"): on the account created
with initial deposit 100, the single operation `add_interest(-200)` drives
the balance to −100 < 0. -/
theorem balance_nonneg_counterexample :
    ((⟨[]⟩ : BankManagementSystem).create_account "Alice" "1234" 100 "Savings" "t0" =
      .ok ("ACC1001", ⟨[("ACC1001",
        { account_number := "ACC1001", name := "Alice", pin := "1234", balance := 100,
          account_type := "Savings", creation_date := "t0",
          transactions := [{ type := "Initial Deposit", amount := 100, balance := 100,
                             date := "t0" }] })]⟩)) ∧
    (applyOps
      { account_number := "ACC1001", name := "Alice", pin := "1234", balance := 100,
        account_type := "Savings", creation_date := "t0",
        transactions := [{ type := "Initial Deposit", amount := 100, balance := 100,
                           date := "t0" }] }
      [AccountOp.addInterest (-200) "t1"]).balance < 0 := by
  constructor
  · rfl
  · norm_num [applyOps, applyOp, Account.add_interest, Account.calculate_interest,
      Account.addTransaction]

theorem replay_append_one (ts : List Transaction) (t : Transaction) :
    replay (ts ++ [t]) = replay ts + replayDelta t := by
  simp [replay, List.foldl_append]

theorem replayDelta_deposit (amount bal : ℚ) (now : String) :
    replayDelta ⟨"Deposit", amount, bal, now⟩ = amount := by
  simp [replayDelta]

theorem replayDelta_initial (amount bal : ℚ) (now : String) :
    replayDelta ⟨"Initial Deposit", amount, bal, now⟩ = amount := by
  simp [replayDelta]

theorem replayDelta_interest (amount bal : ℚ) (now : String) :
    replayDelta ⟨"Interest Credit", amount, bal, now⟩ = amount := by
  simp [replayDelta]

theorem replayDelta_withdrawal (amount bal : ℚ) (now : String) :
    replayDelta ⟨"Withdrawal", amount, bal, now⟩ = -amount := by
  simp [replayDelta]

theorem applyOp_replay (a : Account) (op : AccountOp)
    (h : replay a.transactions = a.balance) :
    replay (applyOp a op).transactions = (applyOp a op).balance := by
  cases op with
  | deposit amount now =>
    by_cases hle : amount ≤ 0
    · simpa [applyOp, Account.deposit, hle] using h
    · simp only [applyOp, Account.deposit, if_neg hle, Account.addTransaction]
      rw [replay_append_one, replayDelta_deposit, h]
  | withdraw amount now =>
    by_cases hle : amount ≤ 0
    · simpa [applyOp, Account.withdraw, hle] using h
    · by_cases h2 : a.balance < amount
      · simpa [applyOp, Account.withdraw, if_neg hle, if_pos h2] using h
      · simp only [applyOp, Account.withdraw, if_neg hle, if_neg h2,
          Account.addTransaction]
        rw [replay_append_one, replayDelta_withdrawal, h]
        ring
  | addInterest rate now =>
    simp only [applyOp, Account.add_interest, Account.calculate_interest,
      Account.addTransaction]
    rw [replay_append_one, replayDelta_interest, h]

theorem applyOps_replay (a : Account) (ops : List AccountOp)
    (h : replay a.transactions = a.balance) :
    replay (applyOps a ops).transactions = (applyOps a ops).balance := by
  induction ops generalizing a with
  | nil => exact h
  | cons op rest ih => exact ih (applyOp a op) (applyOp_replay a op h)

theorem createdAccount_replay (num name pin : String) {init : ℚ} (atype now : String)
    (h0 : 0 ≤ init) :
    replay (createdAccount num name pin init atype now).transactions =
      (createdAccount num name pin init atype now).balance := by
  unfold createdAccount Account.init Account.addTransaction
  by_cases h : 0 < init
  · rw [if_pos h]
    show replay ([] ++ [_]) = init
    rw [replay_append_one, replayDelta_initial]
    simp [replay]
  · rw [if_neg h]
    have : init = 0 := le_antisymm (not_lt.mp h) h0
    simp [replay, this]

/-- C8: for any account inserted by `create_account` and then mutated only
through the shell operations `deposit`, `withdraw` and `add_interest`,
replaying its transaction log from balance 0 (adding `Initial Deposit`,
`Deposit` and `Interest Credit` amounts, subtracting `Withdrawal` amounts,
in log order) reproduces the stored balance exactly. -/
theorem replay_spec (bms : BankManagementSystem) (name pin : String) (init : ℚ)
    (atype now num : String) (bms2 : BankManagementSystem) (a : Account)
    (ops : List AccountOp)
    (hc : bms.create_account name pin init atype now = .ok (num, bms2))
    (ha : bms2.accounts.lookup num = some a) :
    replay (applyOps a ops).transactions = (applyOps a ops).balance := by
  obtain ⟨h0, -, hb2⟩ := create_account_ok_shape hc
  subst hb2
  rw [lookup_dictInsert_self] at ha
  have ha2 : a = createdAccount num name pin init atype now := by
    injection ha.symm
  subst ha2
  exact applyOps_replay _ ops (createdAccount_replay num name pin atype now h0)

/-- Witness for C8: the account created with deposit 100, after depositing 50
and withdrawing 30, satisfies replay-equals-balance. -/
theorem replay_spec_witness :
    replay (applyOps
      { account_number := "ACC1001", name := "Alice", pin := "1234", balance := 100,
        account_type := "Savings", creation_date := "t0",
        transactions := [{ type := "Initial Deposit", amount := 100, balance := 100,
                           date := "t0" }] }
      [AccountOp.deposit 50 "t1", AccountOp.withdraw 30 "t2"]).transactions =
    (applyOps
      { account_number := "ACC1001", name := "Alice", pin := "1234", balance := 100,
        account_type := "Savings", creation_date := "t0",
        transactions := [{ type := "Initial Deposit", amount := 100, balance := 100,
                           date := "t0" }] }
      [AccountOp.deposit 50 "t1", AccountOp.withdraw 30 "t2"]).balance :=
  replay_spec ⟨[]⟩ "Alice" "1234" 100 "Savings" "t0" "ACC1001"
    ⟨[("ACC1001",
      { account_number := "ACC1001", name := "Alice", pin := "1234", balance := 100,
        account_type := "Savings", creation_date := "t0",
        transactions := [{ type := "Initial Deposit", amount := 100, balance := 100,
                           date := "t0" }] })]⟩
    { account_number := "ACC1001", name := "Alice", pin := "1234", balance := 100,
      account_type := "Savings", creation_date := "t0",
      transactions := [{ type := "Initial Deposit", amount := 100, balance := 100,
                         date := "t0" }] }
    [AccountOp.deposit 50 "t1", AccountOp.withdraw 30 "t2"]
    rfl rfl

theorem lookup_eq_none (k : String) (m : List (String × Account))
    (h : ∀ p ∈ m, p.1 ≠ k) : m.lookup k = none := by
  induction m with
  | nil => rfl
  | cons p rest ih =>
    obtain ⟨k2, v2⟩ := p
    have hk : k ≠ k2 := fun he => h (k2, v2) (List.mem_cons_self _ _) (by rw [he])
    rw [List.lookup_cons, beq_false_of_ne hk]
    exact ih (fun q hq => h q (List.mem_cons_of_mem _ hq))

theorem dictInsert_of_lookup_none (k : String) (v : Account) (m : List (String × Account))
    (h : m.lookup k = none) : dictInsert k v m = m ++ [(k, v)] := by
  rw [dictInsert, if_neg (by rw [h]; simp)]

theorem load_foldl_aux (l : List (String × Account)) (acc : List (String × Account))
    (hnd : (l.map Prod.fst).Nodup)
    (hdisj : ∀ p ∈ l, ∀ q ∈ acc, q.1 ≠ p.1) :
    (l.map (fun p => (p.1, p.2.get_details))).foldl
      (fun m q => dictInsert q.1 (Account.fromData q.2) m) acc = acc ++ l := by
  induction l generalizing acc with
  | nil => simp
  | cons p rest ih =>
    obtain ⟨k, a⟩ := p
    simp only [List.map_cons, List.foldl_cons]
    have hlook : acc.lookup k = none :=
      lookup_eq_none k acc (fun q hq => hdisj (k, a) (List.mem_cons_self _ _) q hq)
    rw [show Account.fromData (Account.get_details a) = a from rfl,
      dictInsert_of_lookup_none k a acc hlook]
    rw [List.map_cons] at hnd
    have hpair := List.nodup_cons.mp hnd
    have hdisj2 : ∀ p2 ∈ rest, ∀ q ∈ acc ++ [(k, a)], q.1 ≠ p2.1 := by
      intro p2 hp2 q hq
      rcases List.mem_append.mp hq with hq1 | hq2
      · exact hdisj p2 (List.mem_cons_of_mem _ hp2) q hq1
      · have hqe : q = (k, a) := by simpa using hq2
        subst hqe
        intro he
        exact hpair.1 (by rw [he]; exact List.mem_map_of_mem Prod.fst hp2)
    rw [ih (acc ++ [(k, a)]) hpair.2 hdisj2, List.append_assoc]
    rfl

/-- C9: serializing a directory with `save_data` (the per-account
`get_details` dictionaries, in order) and deserializing with `load_data`
reproduces every account exactly — every field (number, holder name, pin,
balance, type, creation timestamp) and every transaction entry (kind,
amount, resulting balance, timestamp) — provided the directory's keys are
distinct, as dict-built directories' keys always are. -/
theorem save_load_roundtrip (bms : BankManagementSystem)
    (hnd : (bms.accounts.map Prod.fst).Nodup) :
    BankManagementSystem.load_data bms.save_data = bms := by
  unfold BankManagementSystem.load_data BankManagementSystem.save_data
  rw [load_foldl_aux bms.accounts [] hnd (by intro p hp q hq; simp at hq)]
  rfl

/-- Witness for C9: a two-account directory with mixed transaction histories
survives the save/load round-trip unchanged. -/
theorem save_load_roundtrip_witness :
    BankManagementSystem.load_data
      (BankManagementSystem.save_data ⟨[
        ("ACC1001", ⟨"ACC1001", "Alice", "1234", 155.25, "Savings", "t0",
          [⟨"Initial Deposit", 100, 100, "t0"⟩, ⟨"Deposit", 50, 150, "t1"⟩,
           ⟨"Interest Credit", 5.25, 155.25, "t2"⟩]⟩),
        ("ACC1002", ⟨"ACC1002", "Bob", "0007", 25, "Current", "t3",
          [⟨"Initial Deposit", 40, 40, "t3"⟩, ⟨"Withdrawal", 15, 25, "t4"⟩]⟩)]⟩) =
    ⟨[("ACC1001", ⟨"ACC1001", "Alice", "1234", 155.25, "Savings", "t0",
        [⟨"Initial Deposit", 100, 100, "t0"⟩, ⟨"Deposit", 50, 150, "t1"⟩,
         ⟨"Interest Credit", 5.25, 155.25, "t2"⟩]⟩),
      ("ACC1002", ⟨"ACC1002", "Bob", "0007", 25, "Current", "t3",
        [⟨"Initial Deposit", 40, 40, "t3"⟩, ⟨"Withdrawal", 15, 25, "t4"⟩]⟩)]⟩ :=
  save_load_roundtrip _ (by simp)

theorem digitsVal_append_one (cs : List Char) (c : Char) :
    digitsVal (cs ++ [c]) = 10 * digitsVal cs + (c.toNat - 48) := by
  simp [digitsVal, List.foldl_append]

theorem char_ofNat_digit {d : ℕ} (h : d < 10) :
    (Char.ofNat (48 + d)).isDigit = true ∧ (Char.ofNat (48 + d)).toNat = 48 + d := by
  interval_cases d <;> exact ⟨by decide, by decide⟩

theorem natDigitsAux_spec (fuel : ℕ) : ∀ n : ℕ, n < fuel →
    digitsVal (natDigitsAux fuel n) = n ∧ natDigitsAux fuel n ≠ [] ∧
    (natDigitsAux fuel n).all Char.isDigit = true := by
  induction fuel with
  | zero => intro n h; omega
  | succ fuel ih =>
    intro n h
    rw [natDigitsAux]
    by_cases h10 : n < 10
    · rw [if_pos h10]
      obtain ⟨hd, ht⟩ := char_ofNat_digit h10
      refine ⟨?_, by simp, by simp [hd]⟩
      simp [digitsVal, ht]
    · rw [if_neg h10]
      have hrec : n / 10 < fuel := by omega
      obtain ⟨hv, hne, hall⟩ := ih (n / 10) hrec
      have hmod : n % 10 < 10 := Nat.mod_lt n (by norm_num)
      obtain ⟨hd, ht⟩ := char_ofNat_digit hmod
      refine ⟨?_, by simp, ?_⟩
      · rw [digitsVal_append_one, hv, ht]
        omega
      · simp [List.all_append, hall, hd]

theorem natDigits_spec (n : ℕ) :
    digitsVal (natDigits n) = n ∧ natDigits n ≠ [] ∧
    (natDigits n).all Char.isDigit = true :=
  natDigitsAux_spec (n + 1) n (by omega)

theorem pyInt_of_digits (c : Char) (cs : List Char)
    (hall : (c :: cs).all Char.isDigit = true) :
    pyInt (String.mk (c :: cs)) = some (digitsVal (c :: cs) : ℤ) := by
  have hcd : c.isDigit = true := by
    simp only [List.all_cons, Bool.and_eq_true] at hall
    exact hall.1
  have hc1 : ¬(c = '-') := fun he => by rw [he] at hcd; exact absurd hcd (by decide)
  have hc2 : ¬(c = '+') := fun he => by rw [he] at hcd; exact absurd hcd (by decide)
  show (match (String.mk (c :: cs)).data with
    | [] => none
    | c :: cs =>
      if c = '-' then
        if !cs.isEmpty && cs.all Char.isDigit then some (-(digitsVal cs : ℤ)) else none
      else if c = '+' then
        if !cs.isEmpty && cs.all Char.isDigit then some (digitsVal cs : ℤ) else none
      else
        if (c :: cs).all Char.isDigit then some (digitsVal (c :: cs) : ℤ)
        else none) = some (digitsVal (c :: cs) : ℤ)
  rw [show (String.mk (c :: cs)).data = c :: cs from rfl]
  simp only [if_neg hc1, if_neg hc2, if_pos hall]

theorem pyInt_natDigits (n : ℕ) : pyInt (String.mk (natDigits n)) = some (n : ℤ) := by
  obtain ⟨hv, hne, hall⟩ := natDigits_spec n
  cases hd : natDigits n with
  | nil => exact absurd hd hne
  | cons c cs =>
    rw [hd] at hv hall
    rw [pyInt_of_digits c cs hall, hv]

theorem intToStr_nonneg {i : ℤ} (h : 0 ≤ i) :
    intToStr i = String.mk (natDigits i.toNat) := by
  rw [intToStr, if_neg (not_lt.mpr h)]

theorem pyInt_intToStr {i : ℤ} (h : 0 ≤ i) : pyInt (intToStr i) = some i := by
  rw [intToStr_nonneg h, pyInt_natDigits, Int.toNat_of_nonneg h]

theorem drop_three_append (s : String) : ("ACC" ++ s).drop 3 = s := by
  apply String.ext
  rw [String.data_drop]
  show ("ACC".data ++ s.data).drop 3 = s.data
  rfl

theorem le_foldl_max (xs : List ℤ) (x : ℤ) : x ≤ xs.foldl max x := by
  induction xs generalizing x with
  | nil => exact le_refl x
  | cons y ys ih => exact le_trans (le_max_left x y) (ih (max x y))

theorem mem_le_foldl_max (xs : List ℤ) (x y : ℤ) (h : y ∈ xs) : y ≤ xs.foldl max x := by
  induction xs generalizing x with
  | nil => simp at h
  | cons z zs ih =>
    rcases List.mem_cons.mp h with h1 | h2
    · subst h1
      exact le_trans (le_max_right x y) (le_foldl_max zs (max x y))
    · exact ih (max x z) h2

theorem foldl_max_mem (xs : List ℤ) (x : ℤ) :
    xs.foldl max x = x ∨ xs.foldl max x ∈ xs := by
  induction xs generalizing x with
  | nil => exact Or.inl rfl
  | cons y ys ih =>
    rcases ih (max x y) with h | h
    · rcases le_total y x with hyx | hxy
      · exact Or.inl (by rw [List.foldl_cons, h, max_eq_left hyx])
      · exact Or.inr (by rw [List.foldl_cons, h, max_eq_right hxy]; exact List.mem_cons_self y ys)
    · exact Or.inr (List.mem_cons_of_mem y h)

theorem parseSuffixes_some (l : List (String × Account))
    (h : ∀ p ∈ l, ∃ j, pyInt (p.1.drop 3) = some j) :
    ∃ ns, parseSuffixes l = some ns := by
  induction l with
  | nil => exact ⟨[], rfl⟩
  | cons p rest ih =>
    obtain ⟨n, hn⟩ := h p (List.mem_cons_self p rest)
    obtain ⟨ns, hns⟩ := ih (fun q hq => h q (List.mem_cons_of_mem p hq))
    refine ⟨n :: ns, ?_⟩
    rw [parseSuffixes, hn, hns]

theorem parseSuffixes_rel (l : List (String × Account)) (ns : List ℤ)
    (h : parseSuffixes l = some ns) :
    (∀ n ∈ ns, ∃ p ∈ l, pyInt (p.1.drop 3) = some n) ∧
    (∀ p ∈ l, ∃ n ∈ ns, pyInt (p.1.drop 3) = some n) ∧
    (l = [] ↔ ns = []) := by
  induction l generalizing ns with
  | nil =>
    rw [parseSuffixes] at h
    injection h with h2
    subst h2
    exact ⟨by simp, by simp, by simp⟩
  | cons p rest ih =>
    rw [parseSuffixes] at h
    cases hp : pyInt (p.1.drop 3) with
    | none =>
      rw [hp] at h
      cases hr : parseSuffixes rest with
      | none => rw [hr] at h; exact Option.noConfusion h
      | some ms => rw [hr] at h; exact Option.noConfusion h
    | some n =>
      rw [hp] at h
      cases hr : parseSuffixes rest with
      | none => rw [hr] at h; exact Option.noConfusion h
      | some ms =>
        rw [hr] at h
        have h2 : n :: ms = ns := by injection h
        subst h2
        obtain ⟨ha, hb, -⟩ := ih ms hr
        refine ⟨?_, ?_, by simp⟩
        · intro x hx
          rcases List.mem_cons.mp hx with h1 | h1
          · exact ⟨p, List.mem_cons_self p rest, by rw [hp, h1]⟩
          · obtain ⟨q, hq, hqe⟩ := ha x h1
            exact ⟨q, List.mem_cons_of_mem p hq, hqe⟩
        · intro q hq
          rcases List.mem_cons.mp hq with h1 | h1
          · subst h1
            exact ⟨n, List.mem_cons_self n ms, hp⟩
          · obtain ⟨x, hx, hxe⟩ := hb q h1
            exact ⟨x, List.mem_cons_of_mem n hx, hxe⟩

theorem generate_cons (p : String × Account) (rest : List (String × Account)) :
    BankManagementSystem.generate_account_number ⟨p :: rest⟩ =
      match parseSuffixes (p :: rest) with
      | some (n :: ns) => some ("ACC" ++ intToStr (ns.foldl max n + 1))
      | _ => none := rfl

theorem generate_eq_of_max (bms : BankManagementSystem) (n : ℤ)
    (hne : bms.accounts ≠ [])
    (hub : ∀ p ∈ bms.accounts, ∃ j, pyInt (p.1.drop 3) = some j ∧ j ≤ n)
    (hmem : ∃ p ∈ bms.accounts, pyInt (p.1.drop 3) = some n) :
    bms.generate_account_number = some ("ACC" ++ intToStr (n + 1)) := by
  obtain ⟨ns, hns⟩ := parseSuffixes_some bms.accounts
    (fun p hp => (hub p hp).imp (fun j hj => hj.1))
  obtain ⟨ha, hb, hc⟩ := parseSuffixes_rel bms.accounts ns hns
  obtain ⟨accs⟩ := bms
  cases accs with
  | nil => exact absurd rfl hne
  | cons p rest =>
    have hns2 : parseSuffixes (p :: rest) = some ns := hns
    rw [generate_cons, hns2]
    cases hcs : ns with
    | nil =>
      have : p :: rest = [] := hc.mpr hcs
      exact absurd this (by simp)
    | cons m ms =>
      subst hcs
      have hmax : ms.foldl max m = n := by
        apply le_antisymm
        · have hmem2 : ms.foldl max m ∈ m :: ms := by
            rcases foldl_max_mem ms m with he | he
            · rw [he]; exact List.mem_cons_self m ms
            · exact List.mem_cons_of_mem m he
          obtain ⟨q, hq, hqe⟩ := ha (ms.foldl max m) hmem2
          obtain ⟨j, hj1, hj2⟩ := hub q hq
          rw [hqe] at hj1
          have : ms.foldl max m = j := by injection hj1
          rw [this]
          exact hj2
        · obtain ⟨q, hq, hqe⟩ := hmem
          obtain ⟨x, hx, hxe⟩ := hb q hq
          rw [hqe] at hxe
          have hxn : n = x := by injection hxe
          subst hxn
          rcases List.mem_cons.mp hx with h1 | h1
          · rw [h1]; exact le_foldl_max ms m
          · exact mem_le_foldl_max ms m n h1
      show some ("ACC" ++ intToStr (ms.foldl max m + 1)) = _
      rw [hmax]

/-- C4: `generate_account_number` returns `"ACC1001"` on the empty directory;
on a nonempty directory whose key suffixes all parse as integers it returns
`"ACC"` followed by the maximal numeric suffix plus one; and in the scenario
create A, create B, delete A, create C, account C's number `"ACC1003"`
differs from both A's `"ACC1001"` and B's `"ACC1002"` (the freed slot 1001
is not reused). -/
theorem generate_account_number_spec :
    ((⟨[]⟩ : BankManagementSystem).generate_account_number = some "ACC1001") ∧
    (∀ (bms : BankManagementSystem) (n : ℤ), bms.accounts ≠ [] →
      (∀ p ∈ bms.accounts, ∃ j, pyInt (p.1.drop 3) = some j ∧ j ≤ n) →
      (∃ p ∈ bms.accounts, pyInt (p.1.drop 3) = some n) →
      bms.generate_account_number = some ("ACC" ++ intToStr (n + 1))) ∧
    ((⟨[]⟩ : BankManagementSystem).create_account "A" "1111" 0 "Savings" "t0" =
      .ok ("ACC1001", ⟨[("ACC1001", ⟨"ACC1001", "A", "1111", 0, "Savings", "t0", []⟩)]⟩)) ∧
    ((⟨[("ACC1001", ⟨"ACC1001", "A", "1111", 0, "Savings", "t0", []⟩)]⟩ :
        BankManagementSystem).create_account "B" "2222" 0 "Savings" "t1" =
      .ok ("ACC1002", ⟨[("ACC1001", ⟨"ACC1001", "A", "1111", 0, "Savings", "t0", []⟩),
        ("ACC1002", ⟨"ACC1002", "B", "2222", 0, "Savings", "t1", []⟩)]⟩)) ∧
    ((⟨[("ACC1001", ⟨"ACC1001", "A", "1111", 0, "Savings", "t0", []⟩),
        ("ACC1002", ⟨"ACC1002", "B", "2222", 0, "Savings", "t1", []⟩)]⟩ :
        BankManagementSystem).delete_account "ACC1001" "1111" =
      .ok ⟨[("ACC1002", ⟨"ACC1002", "B", "2222", 0, "Savings", "t1", []⟩)]⟩) ∧
    ((⟨[("ACC1002", ⟨"ACC1002", "B", "2222", 0, "Savings", "t1", []⟩)]⟩ :
        BankManagementSystem).create_account "C" "3333" 0 "Savings" "t2" =
      .ok ("ACC1003", ⟨[("ACC1002", ⟨"ACC1002", "B", "2222", 0, "Savings", "t1", []⟩),
        ("ACC1003", ⟨"ACC1003", "C", "3333", 0, "Savings", "t2", []⟩)]⟩)) ∧
    ("ACC1003" ≠ "ACC1001") ∧ ("ACC1003" ≠ "ACC1002") :=
  ⟨rfl, generate_eq_of_max, rfl, rfl, rfl, rfl, by decide, by decide⟩

/-- Witness for C4: on the directory with keys ACC1001 and ACC1005 (a gap
left by deletions), the maximal suffix is 1005 and generation yields
ACC1006. -/
theorem generate_account_number_spec_witness :
    (⟨[("ACC1001", ⟨"ACC1001", "A", "1111", 0, "Savings", "t0", []⟩),
       ("ACC1005", ⟨"ACC1005", "B", "2222", 0, "Savings", "t1", []⟩)]⟩ :
      BankManagementSystem).generate_account_number = some ("ACC" ++ intToStr (1005 + 1)) :=
  generate_account_number_spec.2.1
    ⟨[("ACC1001", ⟨"ACC1001", "A", "1111", 0, "Savings", "t0", []⟩),
      ("ACC1005", ⟨"ACC1005", "B", "2222", 0, "Savings", "t1", []⟩)]⟩ 1005
    (by simp)
    (by
      intro p hp
      rcases List.mem_cons.mp hp with h1 | h1
      · subst h1; exact ⟨1001, by decide, by decide⟩
      · have h2 : p = ("ACC1005", ⟨"ACC1005", "B", "2222", 0, "Savings", "t1", []⟩) := by
          simpa using h1
        subst h2; exact ⟨1005, by decide, by decide⟩)
    ⟨("ACC1005", ⟨"ACC1005", "B", "2222", 0, "Savings", "t1", []⟩),
      by simp, by decide⟩

/-- C10 (amended): `generate_account_number` evaluates `int(key[3:])` for
every key; under the precondition that every key is `"ACC"` followed by a
nonempty run of decimal digits, the parse cannot fail and the generated
number's numeric suffix strictly exceeds every existing suffix, so the
result is never an existing key — even after arbitrary deletions. -/
theorem generate_fresh (bms : BankManagementSystem)
    (h : ∀ p ∈ bms.accounts, ∃ ds : List Char, ds ≠ [] ∧ ds.all Char.isDigit = true ∧
      p.1 = "ACC" ++ String.mk ds) :
    ∃ r, bms.generate_account_number = some r ∧ ∀ p ∈ bms.accounts, p.1 ≠ r := by
  obtain ⟨accs⟩ := bms
  have hparse : ∀ p ∈ accs, ∃ j : ℤ, pyInt (p.1.drop 3) = some j ∧ 0 ≤ j := by
    intro p hp
    obtain ⟨ds, hdne, hall, hkey⟩ := h p hp
    cases ds with
    | nil => exact absurd rfl hdne
    | cons c cs =>
      refine ⟨(digitsVal (c :: cs) : ℤ), ?_, Int.natCast_nonneg _⟩
      rw [hkey, drop_three_append]
      exact pyInt_of_digits c cs hall
  cases accs with
  | nil =>
    refine ⟨"ACC1001", rfl, ?_⟩
    intro p hp
    exact absurd hp (by simp)
  | cons p rest =>
    obtain ⟨ns, hns⟩ := parseSuffixes_some (p :: rest)
      (fun q hq => (hparse q hq).imp fun j hj => hj.1)
    obtain ⟨ha, hb, hc⟩ := parseSuffixes_rel (p :: rest) ns hns
    cases hcs : ns with
    | nil => exact absurd (hc.mpr hcs) (by simp)
    | cons m ms =>
      subst hcs
      have hMmem : ms.foldl max m ∈ m :: ms := by
        rcases foldl_max_mem ms m with he | he
        · rw [he]; exact List.mem_cons_self m ms
        · exact List.mem_cons_of_mem m he
      have hub : ∀ q ∈ p :: rest, ∃ j, pyInt (q.1.drop 3) = some j ∧ j ≤ ms.foldl max m := by
        intro q hq
        obtain ⟨x, hx, hxe⟩ := hb q hq
        refine ⟨x, hxe, ?_⟩
        rcases List.mem_cons.mp hx with h1 | h1
        · rw [h1]; exact le_foldl_max ms m
        · exact mem_le_foldl_max ms m x h1
      have hMnonneg : 0 ≤ ms.foldl max m := by
        obtain ⟨q, hq, hqe⟩ := ha (ms.foldl max m) hMmem
        obtain ⟨j, hj1, hj2⟩ := hparse q hq
        rw [hqe] at hj1
        have he2 : ms.foldl max m = j := by injection hj1
        rw [he2]
        exact hj2
      have hgen : BankManagementSystem.generate_account_number ⟨p :: rest⟩ =
          some ("ACC" ++ intToStr (ms.foldl max m + 1)) := by
        apply generate_eq_of_max ⟨p :: rest⟩ (ms.foldl max m) (by simp) hub
        obtain ⟨q, hq, hqe⟩ := ha (ms.foldl max m) hMmem
        exact ⟨q, hq, hqe⟩
      refine ⟨"ACC" ++ intToStr (ms.foldl max m + 1), hgen, ?_⟩
      intro q hq heq
      obtain ⟨j, hj1, hj2⟩ := hub q hq
      rw [heq, drop_three_append, pyInt_intToStr (by omega)] at hj1
      have he3 : ms.foldl max m + 1 = j := by injection hj1
      omega

/-- Witness for C10 (amended): on the mapping with keys ACC1001 and ACC1005
(a non-contiguous key space), generation succeeds and the result is neither
existing key. -/
theorem generate_fresh_witness :
    ∃ r, (⟨[("ACC1001", ⟨"ACC1001", "A", "1111", 0, "Savings", "t0", []⟩),
            ("ACC1005", ⟨"ACC1005", "B", "2222", 0, "Savings", "t1", []⟩)]⟩ :
        BankManagementSystem).generate_account_number = some r ∧
      ∀ p ∈ (⟨[("ACC1001", ⟨"ACC1001", "A", "1111", 0, "Savings", "t0", []⟩),
               ("ACC1005", ⟨"ACC1005", "B", "2222", 0, "Savings", "t1", []⟩)]⟩ :
        BankManagementSystem).accounts, p.1 ≠ r :=
  generate_fresh _ (by
    intro p hp
    rcases List.mem_cons.mp hp with h1 | h1
    · subst h1
      exact ⟨['1', '0', '0', '1'], by decide, by decide, rfl⟩
    · have h2 : p = ("ACC1005",
          (⟨"ACC1005", "B", "2222", 0, "Savings", "t1", []⟩ : Account)) := by
        simpa using h1
      subst h2
      exact ⟨['1', '0', '0', '5'], by decide, by decide, rfl⟩)

/-- C10 is false as stated ("a key of any other shape makes it fail"): the
mapping whose only key is "XYZ42" is not of the ACC-numeral shape, yet
`generate_account_number` succeeds — `int("XYZ42"[3:])` parses "42" — and
returns "ACC43". -/
theorem generate_fresh_counterexample :
    (⟨[("XYZ42", ⟨"XYZ42", "X", "0000", 0, "Savings", "t", []⟩)]⟩ :
      BankManagementSystem).generate_account_number = some "ACC43" := rfl

